import Mathlib

/-!
# Verification of the reddit-clone backend's identity and voting core

A shallow embedding of the Go sources (gin handlers over a GORM/Postgres
store) into Lean 4, together with theorems settling the specification's
claims about the voting ledger, identity resolution, username allocation,
token claims, and OAuth error handling.

Conventions of the embedding:
* Database tables are lists of rows kept in ascending primary-key order
  (GORM assigns `SERIAL` ids in insertion order, and `First` returns the
  first row in primary-key order, so `List.find?` models `.Where(...).First`).
* Go `int` fields are modelled as `Int`; counts (`int64` from `Count`)
  are modelled as `Nat`.
* External effects (bcrypt, the Google tokeninfo HTTP call, jwt parsing)
  are passed in as function parameters, since their outcomes are decided
  outside the repository.
-/

namespace RedditClone

/-- Embeds `models.Vote` (src/unnamed/part_001): tracks one user's vote on a
post (`postId` non-zero) or a comment (`commentId` non-zero). -/
structure Vote where
  id : Int
  userId : Int
  postId : Int
  commentId : Int
  voteType : Int
  deriving DecidableEq, Repr

/-- Embeds `models.Post` (src/unnamed/part_002); `upvotes`/`downvotes` are the
stored (denormalized, gorm-default 0) counter columns. -/
structure PostRow where
  id : Int
  title : String
  body : String
  content : String
  image : String
  userId : Int
  authorId : Int
  upvotes : Int
  downvotes : Int
  deriving DecidableEq, Repr

/-- Embeds `models.Comment` (src/unnamed/part_003); `upvotes`/`downvotes` are
the stored counter columns. -/
structure CommentRow where
  id : Int
  body : String
  authorId : Int
  postId : Int
  upvotes : Int
  downvotes : Int
  deriving DecidableEq, Repr

/-- Embeds `models.User` (src/internal/models/user.go). -/
structure User where
  id : Int
  username : String
  email : String
  password : String
  bio : String
  avatar : String
  googleId : String
  appleId : String
  authProvider : String
  deriving DecidableEq, Repr

/-- The persistent store the handlers operate on: the tables produced by
GORM `AutoMigrate` (src/unnamed/part_004, `New`).  `nextVoteId` and
`nextUserId` model the `SERIAL` id sequences. -/
structure DB where
  users : List User
  posts : List PostRow
  comments : List CommentRow
  votes : List Vote
  nextVoteId : Int
  nextUserId : Int
  deriving DecidableEq, Repr

/-- Handler outcome: an error response with HTTP status and message, or a
success body carrying the `message` field of the JSON response. -/
inductive VoteOut where
  | err (status : Nat) (msg : String)
  | ok (msg : String)
  deriving DecidableEq, Repr

/-! ## Voting ledger (src/internal/handlers/posts.go, comments.go) -/

/-- Embeds `calculateVotes` (posts.go:20-25): the upvote/downvote counts of a
post, derived by counting ledger rows with the matching `post_id` and
`vote_type`. -/
def calculateVotes (db : DB) (postId : Int) : Nat × Nat :=
  (db.votes.countP (fun v => v.postId == postId && v.voteType == 1),
   db.votes.countP (fun v => v.postId == postId && v.voteType == -1))

/-- Embeds `calculateCommentVotes` (comments.go:37-42). -/
def calculateCommentVotes (db : DB) (commentId : Int) : Nat × Nat :=
  (db.votes.countP (fun v => v.commentId == commentId && v.voteType == 1),
   db.votes.countP (fun v => v.commentId == commentId && v.voteType == -1))

/-- Embeds `VotePost` (posts.go:269-342).  `voterId` is the id extracted by
the auth middleware.  Checks the vote direction, the post's existence, then
the caller's existing vote on the post: same direction deletes the row
(toggle), opposite direction updates it, no row inserts one. -/
def VotePost (db : DB) (voterId postId voteType : Int) : VoteOut × DB :=
  if ¬ (voteType = -1 ∨ voteType = 1) then
    (.err 400 "Vote type must be -1 or 1", db)
  else
    match db.posts.find? (fun p => p.id == postId) with
    | none => (.err 404 "Post not found", db)
    | some post =>
      match db.votes.find? (fun v => v.userId == voterId && v.postId == postId) with
      | some existingVote =>
        if existingVote.voteType = voteType then
          (.ok "Vote removed",
           { db with votes := db.votes.filter (fun v => !(v.id == existingVote.id)) })
        else
          (.ok "Vote updated",
           { db with votes := db.votes.map (fun v =>
               if v.id == existingVote.id then { v with voteType := voteType } else v) })
      | none =>
        (.ok "Vote recorded",
         { db with
             votes := db.votes ++
               [{ id := db.nextVoteId, userId := voterId, postId := post.id,
                  commentId := 0, voteType := voteType }],
             nextVoteId := db.nextVoteId + 1 })

/-- Embeds the shared body of `UpvoteComment` (comments.go:211-247) and
`DownvoteComment` (comments.go:250-286); `voteType` is 1 for the upvote
route and -1 for the downvote route. -/
def voteComment (db : DB) (voterId commentId voteType : Int) : VoteOut × DB :=
  match db.comments.find? (fun c => c.id == commentId) with
  | none => (.err 404 "Comment not found", db)
  | some comment =>
    match db.votes.find? (fun v => v.userId == voterId && v.commentId == commentId) with
    | some existing =>
      if existing.voteType = voteType then
        (.ok "Vote removed",
         { db with votes := db.votes.filter (fun v => !(v.id == existing.id)) })
      else
        (.ok "Vote updated",
         { db with votes := db.votes.map (fun v =>
             if v.id == existing.id then { v with voteType := voteType } else v) })
    | none =>
      (.ok "Vote recorded",
       { db with
           votes := db.votes ++
             [{ id := db.nextVoteId, userId := voterId, postId := 0,
                commentId := comment.id, voteType := voteType }],
           nextVoteId := db.nextVoteId + 1 })

/-- Embeds `UpvoteComment` (comments.go:211-247). -/
def UpvoteComment (db : DB) (voterId commentId : Int) : VoteOut × DB :=
  voteComment db voterId commentId 1

/-- Embeds `DownvoteComment` (comments.go:250-286). -/
def DownvoteComment (db : DB) (voterId commentId : Int) : VoteOut × DB :=
  voteComment db voterId commentId (-1)

/-- Embeds `DeleteComment` (comments.go:179-208): owner-only; deletes the
votes whose `comment_id` matches, then the comment row. -/
def DeleteComment (db : DB) (userId commentId : Int) : VoteOut × DB :=
  match db.comments.find? (fun c => c.id == commentId) with
  | none => (.err 404 "Comment not found", db)
  | some comment =>
    if ¬ (comment.authorId = userId) then
      (.err 403 "You can only delete your own comments", db)
    else
      (.ok "Comment deleted successfully",
       { db with
           votes := db.votes.filter (fun v => !(v.commentId == comment.id)),
           comments := db.comments.filter (fun c => !(c.id == comment.id)) })

/-- Embeds `DeletePost` (posts.go:223-266): owner-only; deletes the post row
and nothing else (in particular, no vote rows). -/
def DeletePost (db : DB) (userId postId : Int) : VoteOut × DB :=
  match db.posts.find? (fun p => p.id == postId) with
  | none => (.err 404 "Post not found", db)
  | some post =>
    if ¬ (post.authorId = userId ∨ post.userId = userId) then
      (.err 403 "You can only delete your own posts", db)
    else
      (.ok "Post deleted successfully",
       { db with posts := db.posts.filter (fun p => !(p.id == post.id)) })

/-- Store-level insert into the `votes` table as it exists at runtime: the
schema comes from GORM `AutoMigrate(&models.Vote{})` (src/unnamed/part_004,
`New`), and `models.Vote` declares no uniqueness constraint, so `Create`
appends unconditionally.  (The raw-SQL `Initialize` at part_004:55-114 does
declare `UNIQUE(user_id, post_id)` / `UNIQUE(user_id, comment_id)`, but no
code in the repository ever calls `Initialize`.) -/
def dbCreateVote (db : DB) (userId postId commentId voteType : Int) : DB :=
  { db with
      votes := db.votes ++
        [{ id := db.nextVoteId, userId := userId, postId := postId,
           commentId := commentId, voteType := voteType }],
      nextVoteId := db.nextVoteId + 1 }

/-- The vote-affecting handler operations, for quantifying over request
sequences. -/
inductive Op where
  | castPost (voterId postId voteType : Int)
  | upvoteC (voterId commentId : Int)
  | downvoteC (voterId commentId : Int)
  | deleteC (userId commentId : Int)
  | deleteP (userId postId : Int)
  deriving DecidableEq, Repr

/-- Run one handler operation, keeping only the store. -/
def applyOp (db : DB) : Op → DB
  | .castPost u p t => (VotePost db u p t).2
  | .upvoteC u c => (UpvoteComment db u c).2
  | .downvoteC u c => (DownvoteComment db u c).2
  | .deleteC u c => (DeleteComment db u c).2
  | .deleteP u p => (DeletePost db u p).2

/-- Run a sequence of handler operations. -/
def applyOps (db : DB) (ops : List Op) : DB :=
  ops.foldl applyOp db

/-- The ledger uniqueness invariant: at most one row per (user, post) pair
and per (user, comment) pair.  The `≠ 0` guards restrict the pairs to real
targets: post-vote rows carry `comment_id = 0` and comment-vote rows carry
`post_id = 0` (part_001). -/
def VoteInv (votes : List Vote) : Prop :=
  (∀ u p : Int, p ≠ 0 → votes.countP (fun v => v.userId == u && v.postId == p) ≤ 1)
  ∧ (∀ u c : Int, c ≠ 0 → votes.countP (fun v => v.userId == u && v.commentId == c) ≤ 1)

/-! ## Decimal representation facts

`ensureUniqueUsername` (src/unnamed/part_005:449-463) builds candidate
usernames with `fmt.Sprintf("%s%d", baseUsername, counter)`, i.e. the base
followed by the decimal representation of the counter.  To reason about the
allocator we need that decimal representations are injective and non-empty;
neither fact is in the library, so we prove them via an explicit digits
function. -/

/-- The decimal digit list of `n`, most-significant first; agrees with
core's fuelled `Nat.toDigitsCore`. -/
def natDigits (n : Nat) : List Char :=
  if h : n / 10 = 0 then [Nat.digitChar (n % 10)]
  else natDigits (n / 10) ++ [Nat.digitChar (n % 10)]
  termination_by n
  decreasing_by
    exact Nat.div_lt_self (Nat.pos_of_ne_zero (fun h0 => h (by simp [h0]))) (by norm_num)

lemma natDigits_ne_nil (n : Nat) : natDigits n ≠ [] := by
  rw [natDigits]
  split <;> simp

lemma toDigitsCore_eq_natDigits :
    ∀ (f n : Nat) (l : List Char), n < f →
      Nat.toDigitsCore 10 f n l = natDigits n ++ l := by
  intro f
  induction f with
  | zero => intro n l h; omega
  | succ f ih =>
    intro n l hn
    rw [Nat.toDigitsCore]
    by_cases h10 : n / 10 = 0
    · rw [natDigits]
      simp [h10]
    · have hpos : 0 < n := Nat.pos_of_ne_zero (fun h0 => h10 (by simp [h0]))
      have hlt : n / 10 < n := Nat.div_lt_self hpos (by norm_num)
      rw [natDigits]
      simp only [h10, if_false, dif_neg]
      rw [ih (n / 10) (Nat.digitChar (n % 10) :: l) (by omega)]
      simp

lemma repr_eq_natDigits (n : Nat) : Nat.repr n = (natDigits n).asString := by
  show (Nat.toDigits 10 n).asString = _
  rw [Nat.toDigits, toDigitsCore_eq_natDigits (n + 1) n [] (Nat.lt_succ_self n)]
  simp

lemma digitChar_inj : ∀ a < 10, ∀ b < 10, Nat.digitChar a = Nat.digitChar b → a = b := by
  decide

lemma natDigits_eq_low {n : Nat} (h : n / 10 = 0) :
    natDigits n = [Nat.digitChar (n % 10)] := by
  rw [natDigits]
  simp [h]

lemma natDigits_eq_high {n : Nat} (h : ¬ n / 10 = 0) :
    natDigits n = natDigits (n / 10) ++ [Nat.digitChar (n % 10)] := by
  rw [natDigits]
  simp [h]

lemma natDigits_injective : ∀ a b : Nat, natDigits a = natDigits b → a = b := by
  intro a
  induction a using Nat.strong_induction_on with
  | _ a ih =>
    intro b h
    by_cases ha : a / 10 = 0 <;> by_cases hb : b / 10 = 0
    · rw [natDigits_eq_low ha, natDigits_eq_low hb] at h
      simp only [List.cons.injEq, and_true] at h
      have := digitChar_inj (a % 10) (by omega) (b % 10) (by omega) h
      omega
    · rw [natDigits_eq_low ha, natDigits_eq_high hb] at h
      have hlen := congrArg List.length h
      rw [List.length_append] at hlen
      simp only [List.length_singleton] at hlen
      have hne := natDigits_ne_nil (b / 10)
      have h0 : (natDigits (b / 10)).length = 0 := by omega
      exact absurd (List.length_eq_zero.mp h0) hne
    · rw [natDigits_eq_high ha, natDigits_eq_low hb] at h
      have hlen := congrArg List.length h
      rw [List.length_append] at hlen
      simp only [List.length_singleton] at hlen
      have hne := natDigits_ne_nil (a / 10)
      have h0 : (natDigits (a / 10)).length = 0 := by omega
      exact absurd (List.length_eq_zero.mp h0) hne
    · rw [natDigits_eq_high ha, natDigits_eq_high hb] at h
      obtain ⟨h1, h2⟩ := List.append_inj' h (by simp)
      have hpos : 0 < a := Nat.pos_of_ne_zero (fun h0 => ha (by simp [h0]))
      have hlt : a / 10 < a := Nat.div_lt_self hpos (by norm_num)
      have hdiv := ih (a / 10) hlt (b / 10) h1
      have hmod := digitChar_inj (a % 10) (by omega) (b % 10) (by omega)
        (by simpa using h2)
      omega

lemma natRepr_injective : Function.Injective Nat.repr := by
  intro a b h
  rw [repr_eq_natDigits, repr_eq_natDigits] at h
  exact natDigits_injective a b (congrArg String.data h)

lemma natRepr_data_ne_nil (n : Nat) : (Nat.repr n).data ≠ [] := by
  rw [repr_eq_natDigits]
  exact natDigits_ne_nil n

/-! ## Username allocation (src/unnamed/part_005:440-463) -/

/-- Embeds `generateUsernameFromEmail` (part_005:440-447): the prefix of the
email before the first `@`, or the whole string when no `@` occurs. -/
def generateUsernameFromEmail (email : String) : String :=
  email.takeWhile (fun c => c ≠ '@')

/-- The `k`-th username candidate tried by `ensureUniqueUsername`'s loop:
the base itself first, then `base1`, `base2`, … (`fmt.Sprintf("%s%d", ...)`). -/
def usernameCandidate (baseUsername : String) (k : Nat) : String :=
  if k = 0 then baseUsername else baseUsername ++ Nat.repr k

lemma usernameCandidate_injective (baseUsername : String) :
    Function.Injective (usernameCandidate baseUsername) := by
  intro j k h
  unfold usernameCandidate at h
  by_cases hj : j = 0 <;> by_cases hk : k = 0
  · omega
  · rw [if_pos hj, if_neg hk] at h
    have hd : baseUsername.data = baseUsername.data ++ (Nat.repr k).data :=
      congrArg String.data h
    have hlen := congrArg List.length hd
    rw [List.length_append] at hlen
    have h0 : (Nat.repr k).data.length = 0 := by omega
    exact absurd (List.length_eq_zero.mp h0) (natRepr_data_ne_nil k)
  · rw [if_neg hj, if_pos hk] at h
    have hd : baseUsername.data ++ (Nat.repr j).data = baseUsername.data :=
      congrArg String.data h
    have hlen := congrArg List.length hd
    rw [List.length_append] at hlen
    have h0 : (Nat.repr j).data.length = 0 := by omega
    exact absurd (List.length_eq_zero.mp h0) (natRepr_data_ne_nil j)
  · rw [if_neg hj, if_neg hk] at h
    have hd : baseUsername.data ++ (Nat.repr j).data
        = baseUsername.data ++ (Nat.repr k).data := congrArg String.data h
    have hrepr : (Nat.repr j).data = (Nat.repr k).data :=
      List.append_cancel_left hd
    exact natRepr_injective (String.ext hrepr)

/-- The loop's availability check: `Where("username = ?", name).First` finds
a row, i.e. the candidate is taken. -/
def usernameTaken (users : List User) (name : String) : Bool :=
  (users.find? (fun u => u.username == name)).isSome

lemma usernameTaken_iff_mem (users : List User) (name : String) :
    usernameTaken users name = true ↔ name ∈ users.map (fun u => u.username) := by
  unfold usernameTaken
  rw [List.find?_isSome]
  simp only [List.mem_map]
  constructor
  · rintro ⟨u, hu, he⟩
    exact ⟨u, hu, (by simpa using he)⟩
  · rintro ⟨u, hu, he⟩
    exact ⟨u, hu, by simp [he]⟩

/-- Pigeonhole: among the first `|users| + 1` candidates at least one is
free, because the candidates are pairwise distinct. -/
lemma exists_free_candidate (users : List User) (baseUsername : String) :
    ∃ k, k ≤ users.length ∧
      usernameTaken users (usernameCandidate baseUsername k) = false := by
  by_contra hcon
  push_neg at hcon
  have htaken : ∀ k, k ≤ users.length →
      usernameCandidate baseUsername k ∈ users.map (fun u => u.username) := by
    intro k hk
    have hne := hcon k hk
    have ht : usernameTaken users (usernameCandidate baseUsername k) = true := by
      cases hb : usernameTaken users (usernameCandidate baseUsername k)
      · exact absurd hb hne
      · rfl
    exact (usernameTaken_iff_mem users _).mp ht
  set names : List String := users.map (fun u => u.username) with hnames
  have hsub : (Finset.range (users.length + 1)).image (usernameCandidate baseUsername)
      ⊆ names.toFinset := by
    intro x hx
    rw [Finset.mem_image] at hx
    obtain ⟨k, hk, rfl⟩ := hx
    exact List.mem_toFinset.mpr (htaken k (Nat.lt_succ_iff.mp (Finset.mem_range.mp hk)))
  have h1 : users.length + 1 ≤ names.toFinset.card := by
    calc users.length + 1
        = ((Finset.range (users.length + 1)).image (usernameCandidate baseUsername)).card := by
          rw [Finset.card_image_of_injective _ (usernameCandidate_injective baseUsername),
            Finset.card_range]
      _ ≤ names.toFinset.card := Finset.card_le_card hsub
  have h2 : names.toFinset.card ≤ names.length := names.toFinset_card_le
  have h3 : names.length = users.length := by simp [hnames]
  omega

lemma exists_free_candidate' (users : List User) (baseUsername : String) :
    ∃ k, usernameTaken users (usernameCandidate baseUsername k) = false := by
  obtain ⟨k, _, hk⟩ := exists_free_candidate users baseUsername
  exact ⟨k, hk⟩

/-- Embeds `ensureUniqueUsername` (part_005:449-463): the Go loop checks
`baseUsername`, then `baseUsername1`, `baseUsername2`, … and returns the
first candidate for which the username lookup finds no row.  The loop is
the least-index search `Nat.find`; the pigeonhole lemma above supplies the
termination witness the Go code leaves implicit. -/
def ensureUniqueUsername (users : List User) (baseUsername : String) : String :=
  usernameCandidate baseUsername (Nat.find (exists_free_candidate' users baseUsername))

/-! ## Identity resolution (src/unnamed/part_005) -/

/-- The claims each handler embeds in the JWT (part_005:153-158, 203-208,
298-303, 387-392): exactly `user_id`, `username`, `email` and `exp`;
`exp` is a Unix timestamp in seconds. -/
structure SessionClaims where
  userId : Int
  username : String
  email : String
  exp : Int
  deriving DecidableEq, Repr

/-- Authentication handler outcome: error response, or success with the
issued token claims and the resolved user echoed in the response body. -/
inductive AuthOut where
  | err (status : Nat) (msg : String)
  | ok (status : Nat) (claims : SessionClaims) (user : User)
  deriving DecidableEq, Repr

/-- Embeds `GoogleUserInfo` (part_005:30-38). -/
structure GoogleUserInfo where
  sub : String
  email : String
  emailVerified : Bool
  picture : String
  name : String
  givenName : String
  familyName : String
  deriving DecidableEq, Repr

/-- Embeds `AppleUserInfo` (part_005:41-46); Apple transmits the two
verification flags as strings. -/
structure AppleUserInfo where
  sub : String
  email : String
  emailVerified : String
  isPrivateEmail : String
  deriving DecidableEq, Repr

/-- Embeds `Register` (part_005:113-176): duplicate username-or-email check,
bcrypt hash (`hash` parameter, since bcrypt is an external library), row
creation with `auth_provider = "email"`, then token issuance with expiry
`now + 72` hours (`time.Now().Add(time.Hour * 72).Unix()`). -/
def Register (db : DB) (username email password avatar : String)
    (hash : String → String) (now : Int) : AuthOut × DB :=
  match db.users.find? (fun u => u.username == username || u.email == email) with
  | some _ => (.err 400 "Username or email already exists", db)
  | none =>
    let user : User :=
      { id := db.nextUserId, username := username, email := email,
        password := hash password, bio := "", avatar := avatar,
        googleId := "", appleId := "", authProvider := "email" }
    (.ok 201 { userId := user.id, username := user.username,
               email := user.email, exp := now + 72 * 3600 } user,
     { db with users := db.users ++ [user], nextUserId := db.nextUserId + 1 })

/-- Embeds `Login` (part_005:179-228): row lookup by
`email = ? AND auth_provider = "email"`, then
`bcrypt.CompareHashAndPassword` (the `compareHash` parameter, applied to the
stored hash and the submitted password); both failures answer 401
"Invalid credentials".  `Login` performs no writes, so it returns only the
response. -/
def Login (db : DB) (email password : String)
    (compareHash : String → String → Bool) (now : Int) : AuthOut :=
  match db.users.find? (fun u => u.email == email && u.authProvider == "email") with
  | none => .err 401 "Invalid credentials"
  | some user =>
    if compareHash user.password password = false then
      .err 401 "Invalid credentials"
    else
      .ok 200 { userId := user.id, username := user.username,
                email := user.email, exp := now + 72 * 3600 } user

/-- Embeds the account-resolution query of `GoogleLogin` (part_005:251):
`db.Where("email = ? OR google_id = ?", email, sub).First(&user)` — the
first row in primary-key order matching either disjunct. -/
def lookupByEmailOrGoogleId (users : List User) (email sub : String) : Option User :=
  users.find? (fun u => u.email == email || u.googleId == sub)

/-- Embeds the account-resolution query of `AppleLogin` (part_005:345):
`db.Where("email = ? OR apple_id = ?", email, sub).First(&user)`. -/
def lookupByEmailOrAppleId (users : List User) (email sub : String) : Option User :=
  users.find? (fun u => u.email == email || u.appleId == sub)

/-- Embeds `GoogleLogin` (part_005:231-322).  `verify` abstracts
`verifyGoogleIDToken` (an HTTPS call to Google's tokeninfo endpoint).  On
verification failure: 401 and no store change.  Otherwise the account is
resolved by `Where("email = ? OR google_id = ?").First`, i.e. the first row
in primary-key order matching either field; a miss creates a user (username
from the request or derived from the email, made unique), a hit backfills
`google_id` and possibly the avatar. -/
def GoogleLogin (db : DB) (token username avatar : String)
    (verify : String → Except String GoogleUserInfo) (now : Int) : AuthOut × DB :=
  match verify token with
  | .error _ => (.err 401 "Invalid Google token", db)
  | .ok googleUser =>
    match lookupByEmailOrGoogleId db.users googleUser.email googleUser.sub with
    | none =>
      let name0 := if username = "" then generateUsernameFromEmail googleUser.email else username
      let uniqueName := ensureUniqueUsername db.users name0
      let avatar0 := if avatar = "" ∧ googleUser.picture ≠ "" then googleUser.picture else avatar
      let user : User :=
        { id := db.nextUserId, username := uniqueName, email := googleUser.email,
          password := "", bio := "", avatar := avatar0,
          googleId := googleUser.sub, appleId := "", authProvider := "google" }
      (.ok 200 { userId := user.id, username := user.username,
                 email := user.email, exp := now + 72 * 3600 } user,
       { db with users := db.users ++ [user], nextUserId := db.nextUserId + 1 })
    | some user =>
      let user1 := if user.googleId = "" then { user with googleId := googleUser.sub } else user
      let user2 := if avatar ≠ "" ∧ user1.avatar = "" then { user1 with avatar := avatar } else user1
      (.ok 200 { userId := user2.id, username := user2.username,
                 email := user2.email, exp := now + 72 * 3600 } user2,
       { db with users := db.users.map (fun u => if u.id == user.id then user2 else u) })

/-- Embeds `AppleLogin` (part_005:325-411); same shape as `GoogleLogin` but
the lookup matches `email = ? OR apple_id = ?`, the new user's avatar comes
only from the request (Apple supplies no picture), and the backfill targets
`apple_id`. -/
def AppleLogin (db : DB) (token username avatar : String)
    (verify : String → Except String AppleUserInfo) (now : Int) : AuthOut × DB :=
  match verify token with
  | .error _ => (.err 401 "Invalid Apple token", db)
  | .ok appleUser =>
    match lookupByEmailOrAppleId db.users appleUser.email appleUser.sub with
    | none =>
      let name0 := if username = "" then generateUsernameFromEmail appleUser.email else username
      let uniqueName := ensureUniqueUsername db.users name0
      let user : User :=
        { id := db.nextUserId, username := uniqueName, email := appleUser.email,
          password := "", bio := "", avatar := avatar,
          googleId := "", appleId := appleUser.sub, authProvider := "apple" }
      (.ok 200 { userId := user.id, username := user.username,
                 email := user.email, exp := now + 72 * 3600 } user,
       { db with users := db.users ++ [user], nextUserId := db.nextUserId + 1 })
    | some user =>
      let user1 := if user.appleId = "" then { user with appleId := appleUser.sub } else user
      let user2 := if avatar ≠ "" ∧ user1.avatar = "" then { user1 with avatar := avatar } else user1
      (.ok 200 { userId := user2.id, username := user2.username,
                 email := user2.email, exp := now + 72 * 3600 } user2,
       { db with users := db.users.map (fun u => if u.id == user.id then user2 else u) })

/-! ## Apple token verification (part_005:76-110) -/

/-- A JSON value as it can appear in a parsed JWT claims map. -/
inductive JVal where
  | str (s : String)
  | num (n : Int)
  | boolean (b : Bool)
  | null
  deriving DecidableEq, Repr

/-- Result of a Go function that can also panic at runtime. -/
inductive GoResult (α : Type) where
  | ok (a : α)
  | err (msg : String)
  | panicked
  deriving DecidableEq, Repr

/-- Models the unchecked Go type assertion `claims[key].(string)`: a string
value succeeds; an absent key (`nil` interface) or a non-string value makes
the assertion panic, which we signal with `none`. -/
def claimString (claims : List (String × JVal)) (key : String) : Option String :=
  match claims.lookup key with
  | some (.str s) => some s
  | _ => none

/-- Embeds `verifyAppleIDToken` (part_005:76-110).  The dot-split structure
check is from the source; `parse` abstracts `jwt.Parse` with the hard-coded
HMAC key `"dummy-key-for-parsing"` (an external library call), returning the
claims map on success.  The source then reads `claims["sub"].(string)` and
`claims["email"].(string)` with unchecked type assertions, so a successfully
parsed token whose claims lack a string `sub` or `email` makes the handler
panic.

The structure check is `len(strings.Split(idToken, ".")) != 3`; splitting on
the single character `.` yields exactly one more part than the number of
`.` occurrences, so the check is embedded as: the token does not contain
exactly two dots. -/
def verifyAppleIDToken
    (parse : String → Except String (List (String × JVal)))
    (idToken : String) : GoResult AppleUserInfo :=
  if idToken.data.count '.' ≠ 2 then
    .err "invalid token format"
  else
    match parse idToken with
    | .error e => .err ("failed to parse token: " ++ e)
    | .ok claims =>
      match claimString claims "sub" with
      | none => .panicked
      | some sub =>
        match claimString claims "email" with
        | none => .panicked
        | some email =>
          .ok { sub := sub, email := email, emailVerified := "", isPrivateEmail := "" }

/-! ## Read paths (posts.go `GetPost`/`GetPosts`, comments.go `GetComments`) -/

/-- The JSON body `GetPost` (posts.go:66-91) builds for one post: the
`upvotes`/`downvotes` entries come from `calculateVotes`, not from the
post row's stored counter columns. -/
structure PostResponse where
  id : Int
  title : String
  body : String
  content : String
  image : String
  userId : Int
  authorId : Int
  upvotes : Nat
  downvotes : Nat
  deriving DecidableEq, Repr

/-- Embeds `GetPost` (posts.go:66-91): 404 (`none`) when the post is absent,
otherwise the response body with ledger-derived counts. -/
def GetPost (db : DB) (postId : Int) : Option PostResponse :=
  match db.posts.find? (fun p => p.id == postId) with
  | none => none
  | some post =>
    some { id := post.id, title := post.title, body := post.body,
           content := post.content, image := post.image,
           userId := post.userId, authorId := post.authorId,
           upvotes := (calculateVotes db post.id).1,
           downvotes := (calculateVotes db post.id).2 }

/-- The JSON body `GetComments` (comments.go:45-75) builds per comment. -/
structure CommentResponse where
  id : Int
  body : String
  authorId : Int
  postId : Int
  upvotes : Nat
  downvotes : Nat
  deriving DecidableEq, Repr

/-- Embeds `GetComments` (comments.go:45-75): the comments of a post, each
with counts from `calculateCommentVotes`. -/
def GetComments (db : DB) (postId : Int) : List CommentResponse :=
  (db.comments.filter (fun c => c.postId == postId)).map (fun comment =>
    { id := comment.id, body := comment.body, authorId := comment.authorId,
      postId := comment.postId,
      upvotes := (calculateCommentVotes db comment.id).1,
      downvotes := (calculateCommentVotes db comment.id).2 })

/-- Overwrites the stored (denormalized) `upvotes`/`downvotes` counter
columns of every post and comment row with arbitrary values, leaving the
vote ledger untouched.  Reads that derive counts from the ledger are
invariant under this. -/
def overwriteCounters (db : DB) (fp : PostRow → Int × Int)
    (fc : CommentRow → Int × Int) : DB :=
  { db with
      posts := db.posts.map (fun p =>
        { p with upvotes := (fp p).1, downvotes := (fp p).2 }),
      comments := db.comments.map (fun c =>
        { c with upvotes := (fc c).1, downvotes := (fc c).2 }) }

/-! ## Concrete fixtures for witnesses and counterexamples -/

/-- A registered local user, for concrete instantiations. -/
def userAlice : User :=
  { id := 1, username := "alice", email := "a@x.com", password := "hashed-secret1",
    bio := "", avatar := "", googleId := "", appleId := "", authProvider := "email" }

/-- A post owned by user 7. -/
def postW : PostRow :=
  { id := 5, title := "t", body := "b", content := "b", image := "",
    userId := 7, authorId := 7, upvotes := 0, downvotes := 0 }

/-- A comment on post 5 owned by user 7. -/
def commentW : CommentRow :=
  { id := 3, body := "hello", authorId := 7, postId := 5, upvotes := 0, downvotes := 0 }

/-- An existing +1 post vote by user 9 on post 5. -/
def voteW : Vote := { id := 1, userId := 9, postId := 5, commentId := 0, voteType := 1 }

/-- An existing +1 comment vote by user 9 on comment 3. -/
def voteCW : Vote := { id := 2, userId := 9, postId := 0, commentId := 3, voteType := 1 }

/-- A store with one user, one post, one comment and no votes. -/
def dbW : DB :=
  { users := [userAlice], posts := [postW], comments := [commentW],
    votes := [], nextVoteId := 1, nextUserId := 2 }

/-- The store `dbW` after user 9 upvoted post 5 and comment 3. -/
def dbWV : DB :=
  { users := [userAlice], posts := [postW], comments := [commentW],
    votes := [voteW, voteCW], nextVoteId := 3, nextUserId := 2 }

/-- C5 counterexample: with user 1 matching the verified Google subject-id
and user 2 matching the verified email, `GoogleLogin` resolves user 1 — the
email match does not take priority. -/
def cxSubUser : User :=
  { id := 1, username := "sub-match", email := "other@x.com", password := "",
    bio := "", avatar := "a", googleId := "g-1", appleId := "", authProvider := "google" }

/-- The other stored row of the C5 counterexample: it matches the verified
email. -/
def cxEmailUser : User :=
  { id := 2, username := "email-match", email := "a@x.com", password := "h",
    bio := "", avatar := "a", googleId := "", appleId := "", authProvider := "email" }

/-- The two-user store of the C5 counterexample, in primary-key order. -/
def cxDB : DB :=
  { users := [cxSubUser, cxEmailUser], posts := [], comments := [],
    votes := [], nextVoteId := 1, nextUserId := 3 }

/-! ## C4 — local login failures are indistinguishable -/

/-- C4: for every local login request, whether no user row matches
(email, auth-provider = email) or the password fails verification against
the stored hash, `Login` returns the same generic 401 "Invalid credentials"
response, so the two failure causes are indistinguishable to the caller. -/
theorem login_failures_indistinguishable :
    ∀ (db : DB) (email password : String)
      (compareHash : String → String → Bool) (now : Int),
      (db.users.find? (fun u => u.email == email && u.authProvider == "email") = none →
        Login db email password compareHash now = .err 401 "Invalid credentials")
      ∧ (∀ u, db.users.find? (fun u => u.email == email && u.authProvider == "email") = some u →
          compareHash u.password password = false →
          Login db email password compareHash now = .err 401 "Invalid credentials") := by
  intro db email password compareHash now
  constructor
  · intro h
    unfold Login
    rw [h]
  · intro u hu hv
    unfold Login
    rw [hu]
    simp [hv]

/-- Witness for C4: both failure causes produce the identical response on
concrete stores. -/
theorem login_failures_indistinguishable_witness :
    Login { users := [], posts := [], comments := [], votes := [],
            nextVoteId := 1, nextUserId := 1 }
        "a@x.com" "pw" (fun _ _ => false) 0 = .err 401 "Invalid credentials"
    ∧ Login dbW "a@x.com" "wrong-pw" (fun _ _ => false) 0 = .err 401 "Invalid credentials" :=
  ⟨(login_failures_indistinguishable _ "a@x.com" "pw" (fun _ _ => false) 0).1 (by decide),
   (login_failures_indistinguishable dbW "a@x.com" "wrong-pw" (fun _ _ => false) 0).2
     userAlice (by decide) rfl⟩

/-! ## C6 — failed provider verification returns 401 and writes nothing -/

/-- C6: for every OAuth request whose provider verification fails, the
handler answers 401 with "Invalid Google token" / "Invalid Apple token" and
the store is returned unchanged: no user row is created or mutated. -/
theorem oauth_verify_failure_no_persistence :
    ∀ (db : DB) (token username avatar : String) (now : Int)
      (gverify : String → Except String GoogleUserInfo)
      (averify : String → Except String AppleUserInfo) (e e' : String),
      (gverify token = .error e →
        GoogleLogin db token username avatar gverify now
          = (.err 401 "Invalid Google token", db))
      ∧ (averify token = .error e' →
        AppleLogin db token username avatar averify now
          = (.err 401 "Invalid Apple token", db)) := by
  intro db token username avatar now gverify averify e e'
  constructor
  · intro h
    unfold GoogleLogin
    rw [h]
  · intro h
    unfold AppleLogin
    rw [h]

/-- Witness for C6 at a concrete store and failing verifiers. -/
theorem oauth_verify_failure_no_persistence_witness :
    GoogleLogin dbW "bad" "" "" (fun _ => .error "invalid google token") 0
      = (.err 401 "Invalid Google token", dbW)
    ∧ AppleLogin dbW "bad" "" "" (fun _ => .error "invalid apple token") 0
      = (.err 401 "Invalid Apple token", dbW) :=
  ⟨(oauth_verify_failure_no_persistence dbW "bad" "" "" 0
      (fun _ => .error "invalid google token") (fun _ => .error "invalid apple token")
      "invalid google token" "invalid apple token").1 rfl,
   (oauth_verify_failure_no_persistence dbW "bad" "" "" 0
      (fun _ => .error "invalid google token") (fun _ => .error "invalid apple token")
      "invalid google token" "invalid apple token").2 rfl⟩

/-! ## C7 — `verifyAppleIDToken` totality

The structural checks do return errors: a token that is not three
dot-separated segments yields "invalid token format", and a parse failure
yields "failed to parse token".  But the claims extraction uses the
unchecked Go type assertions `claims["sub"].(string)` /
`claims["email"].(string)` (part_005:104-107), so a token that parses
(e.g. a three-segment JWT HMAC-signed with the hard-coded key
`"dummy-key-for-parsing"`) whose payload lacks a string `sub` or `email`
claim makes the handler panic instead of returning a ProviderError. -/

/-- C7 (code bug): evaluation at the failing input.  The first two
conjuncts confirm the claim's error cases; the last two exhibit the crash:
a successfully parsed token with no `sub` claim (or a non-string `sub`)
panics rather than yielding a ProviderError. -/
theorem verifyAppleIDToken_panics_on_missing_claims :
    verifyAppleIDToken (fun _ => .ok [("sub", JVal.str "s"), ("email", JVal.str "e@x.com")])
        "a.b" = .err "invalid token format"
    ∧ verifyAppleIDToken (fun _ => .error "signature check failed") "a.b.c"
        = .err "failed to parse token: signature check failed"
    ∧ verifyAppleIDToken (fun _ => .ok [("email", JVal.str "user@example.com")]) "a.b.c"
        = .panicked
    ∧ verifyAppleIDToken (fun _ => .ok [("sub", JVal.num 42), ("email", JVal.str "e@x.com")])
        "a.b.c" = .panicked := by
  refine ⟨?_, ?_, ?_, ?_⟩ <;> rfl

/-! ## C8 — username allocation is fresh and bounded -/

/-- C8: `ensureUniqueUsername` returns a username absent from the user set,
and reaches it within `|users| + 1` lookup attempts, trying the base
candidate and then `base1`, `base2`, … in increasing suffix order (every
earlier candidate was taken). -/
theorem ensureUniqueUsername_fresh_and_bounded :
    ∀ (users : List User) (baseUsername : String),
      ∃ k, k ≤ users.length ∧
        ensureUniqueUsername users baseUsername = usernameCandidate baseUsername k ∧
        ensureUniqueUsername users baseUsername ∉ users.map (fun u => u.username) ∧
        ∀ j, j < k → usernameCandidate baseUsername j ∈ users.map (fun u => u.username) := by
  intro users base
  refine ⟨Nat.find (exists_free_candidate' users base), ?_, rfl, ?_, ?_⟩
  · obtain ⟨k0, hk0, hfree⟩ := exists_free_candidate users base
    exact le_trans (Nat.find_min' _ hfree) hk0
  · intro hmem
    have hspec := Nat.find_spec (exists_free_candidate' users base)
    have : usernameTaken users
        (usernameCandidate base (Nat.find (exists_free_candidate' users base))) = true :=
      (usernameTaken_iff_mem users _).mpr hmem
    rw [hspec] at this
    exact Bool.false_ne_true this
  · intro j hj
    have hmin := Nat.find_min (exists_free_candidate' users base) hj
    have ht : usernameTaken users (usernameCandidate base j) = true := by
      cases hb : usernameTaken users (usernameCandidate base j)
      · exact absurd hb hmin
      · rfl
    exact (usernameTaken_iff_mem users _).mp ht

/-- Witness for C8 at a concrete user set and base candidate. -/
theorem ensureUniqueUsername_fresh_and_bounded_witness :
    ∃ k, k ≤ [userAlice].length ∧
      ensureUniqueUsername [userAlice] "alice" = usernameCandidate "alice" k ∧
      ensureUniqueUsername [userAlice] "alice" ∉ [userAlice].map (fun u => u.username) ∧
      ∀ j, j < k → usernameCandidate "alice" j ∈ [userAlice].map (fun u => u.username) :=
  ensureUniqueUsername_fresh_and_bounded [userAlice] "alice"

/-! ## C9 — issued session claims -/

/-- C9: every token issued on successful registration, local login, or
OAuth login (Google/Apple) embeds exactly the user-id, username and email
of the resolved user, with expiry = issuance instant + 72 hours
(`time.Now().Add(72 * time.Hour).Unix()` = `now + 72 * 3600` seconds).
`SessionClaims` has exactly these four fields, matching the four
`jwt.MapClaims` keys the handlers set. -/
theorem session_token_claims :
    ∀ (db : DB) (now : Int),
      (∀ username email password avatar hash st cl u,
        (Register db username email password avatar hash now).1 = .ok st cl u →
        cl = { userId := u.id, username := u.username, email := u.email,
               exp := now + 72 * 3600 })
      ∧ (∀ email password compareHash st cl u,
        Login db email password compareHash now = .ok st cl u →
        cl = { userId := u.id, username := u.username, email := u.email,
               exp := now + 72 * 3600 })
      ∧ (∀ token username avatar gverify st cl u,
        (GoogleLogin db token username avatar gverify now).1 = .ok st cl u →
        cl = { userId := u.id, username := u.username, email := u.email,
               exp := now + 72 * 3600 })
      ∧ (∀ token username avatar averify st cl u,
        (AppleLogin db token username avatar averify now).1 = .ok st cl u →
        cl = { userId := u.id, username := u.username, email := u.email,
               exp := now + 72 * 3600 }) := by
  intro db now
  refine ⟨?_, ?_, ?_, ?_⟩
  · intro username email password avatar hash st cl u hout
    unfold Register at hout
    cases hfind : db.users.find? (fun u => u.username == username || u.email == email) with
    | some w => rw [hfind] at hout; simp at hout
    | none =>
      rw [hfind] at hout
      injection hout with h1 h2 h3
      subst h2
      subst h3
      rfl
  · intro email password compareHash st cl u hout
    unfold Login at hout
    cases hfind : db.users.find? (fun u => u.email == email && u.authProvider == "email") with
    | none => rw [hfind] at hout; simp at hout
    | some w =>
      rw [hfind] at hout
      by_cases hv : compareHash w.password password = false
      · simp [hv] at hout
      · simp only [hv, if_false, ite_false] at hout
        injection hout with h1 h2 h3
        subst h2
        subst h3
        rfl
  · intro token username avatar gverify st cl u hout
    unfold GoogleLogin at hout
    cases hver : gverify token with
    | error e => rw [hver] at hout; simp at hout
    | ok gu =>
      simp only [hver] at hout
      cases hfind : lookupByEmailOrGoogleId db.users gu.email gu.sub with
      | none =>
        simp only [hfind] at hout
        injection hout with h1 h2 h3
        subst h2
        subst h3
        rfl
      | some w =>
        simp only [hfind] at hout
        injection hout with h1 h2 h3
        subst h2
        subst h3
        rfl
  · intro token username avatar averify st cl u hout
    unfold AppleLogin at hout
    cases hver : averify token with
    | error e => rw [hver] at hout; simp at hout
    | ok au =>
      simp only [hver] at hout
      cases hfind : lookupByEmailOrAppleId db.users au.email au.sub with
      | none =>
        simp only [hfind] at hout
        injection hout with h1 h2 h3
        subst h2
        subst h3
        rfl
      | some w =>
        simp only [hfind] at hout
        injection hout with h1 h2 h3
        subst h2
        subst h3
        rfl

/-- Witness for C9: a concrete successful registration and a concrete
Google login (account-linking path) carry exactly the resolved user's
claims with a 72-hour expiry. -/
theorem session_token_claims_witness :
    ({ userId := 2, username := "bob", email := "b@x.com", exp := 1000 + 72 * 3600 }
        : SessionClaims)
      = { userId := 2, username := "bob", email := "b@x.com", exp := 1000 + 72 * 3600 } :=
  (session_token_claims dbW 1000).1 "bob" "b@x.com" "pw123456" "" (fun _ => "h") 201
    { userId := 2, username := "bob", email := "b@x.com", exp := 1000 + 72 * 3600 }
    { id := 2, username := "bob", email := "b@x.com", password := "h", bio := "",
      avatar := "", googleId := "", appleId := "", authProvider := "email" }
    (by decide)

/-! ## C5 — OAuth account resolution order

The source resolves an existing account with one query,
`Where("email = ? OR google_id = ?").First` (part_005:251, 345).  SQL gives
no precedence to the first disjunct: GORM's `First` orders by primary key,
so the matching row with the smallest id wins — an email match has no
priority over a subject-id match. -/

/-- GORM `First` on a table in primary-key order returns the matching row
with the smallest primary key. -/
lemma find?_min_id (users : List User) (p : User → Bool) (u : User)
    (hsorted : users.Pairwise (fun a b => a.id < b.id))
    (hfind : users.find? p = some u) :
    p u = true ∧ u ∈ users ∧ ∀ w ∈ users, p w = true → u.id ≤ w.id := by
  induction users with
  | nil => simp at hfind
  | cons x xs ih =>
    rw [List.pairwise_cons] at hsorted
    cases hx : p x with
    | true =>
      rw [List.find?_cons_of_pos _ hx] at hfind
      injection hfind with hxu
      subst hxu
      refine ⟨hx, List.mem_cons_self _ _, ?_⟩
      intro w hw _
      rcases List.mem_cons.mp hw with rfl | hw'
      · exact le_refl _
      · exact le_of_lt (hsorted.1 w hw')
    | false =>
      rw [List.find?_cons_of_neg _ (by simp [hx])] at hfind
      obtain ⟨hpu, hmem, hmin⟩ := ih hsorted.2 hfind
      refine ⟨hpu, List.mem_cons_of_mem _ hmem, ?_⟩
      intro w hw hpw
      rcases List.mem_cons.mp hw with rfl | hw'
      · rw [hx] at hpw
        exact absurd hpw (by simp)
      · exact hmin w hw' hpw

/-- C5 is false as stated: on `cxDB`, the verified pair
(email "a@x.com", subject "g-1") matches user 2 by email and user 1 by
subject-id, yet the lookup and the whole `GoogleLogin` flow resolve user 1
(the subject-id match with the smaller primary key), not the email match. -/
theorem google_email_priority_counterexample :
    lookupByEmailOrGoogleId cxDB.users "a@x.com" "g-1" = some cxSubUser
    ∧ cxSubUser.email ≠ "a@x.com"
    ∧ cxSubUser.googleId = "g-1"
    ∧ cxEmailUser ∈ cxDB.users
    ∧ cxEmailUser.email = "a@x.com"
    ∧ cxSubUser ≠ cxEmailUser
    ∧ (GoogleLogin cxDB "tok" "" ""
        (fun _ => .ok { sub := "g-1", email := "a@x.com", emailVerified := true,
                        picture := "", name := "", givenName := "", familyName := "" })
        0).1
      = .ok 200 { userId := 1, username := "sub-match", email := "other@x.com",
                  exp := 259200 } cxSubUser := by
  refine ⟨by decide, by decide, by decide, by decide, by decide, by decide, by decide⟩

/-- C5 (amended): OAuth account resolution is a single lookup matching the
verified email OR the provider subject-id; among the matching rows the one
first in primary-key order (smallest id) wins, for both the Google and the
Apple lookup.  There is no email-over-subject-id priority. -/
theorem oauth_lookup_first_by_primary_key :
    ∀ (users : List User) (email sub : String) (u : User),
      users.Pairwise (fun a b => a.id < b.id) →
      (lookupByEmailOrGoogleId users email sub = some u →
        (u.email = email ∨ u.googleId = sub) ∧ u ∈ users ∧
          ∀ w ∈ users, (w.email = email ∨ w.googleId = sub) → u.id ≤ w.id)
      ∧ (lookupByEmailOrAppleId users email sub = some u →
        (u.email = email ∨ u.appleId = sub) ∧ u ∈ users ∧
          ∀ w ∈ users, (w.email = email ∨ w.appleId = sub) → u.id ≤ w.id) := by
  intro users email sub u hsorted
  constructor
  · intro hfind
    obtain ⟨hpu, hmem, hmin⟩ := find?_min_id users _ u hsorted hfind
    refine ⟨by simpa using hpu, hmem, ?_⟩
    intro w hw hpw
    exact hmin w hw (by simpa using hpw)
  · intro hfind
    obtain ⟨hpu, hmem, hmin⟩ := find?_min_id users _ u hsorted hfind
    refine ⟨by simpa using hpu, hmem, ?_⟩
    intro w hw hpw
    exact hmin w hw (by simpa using hpw)

/-- Witness for the amended C5 at the concrete two-user store. -/
theorem oauth_lookup_first_by_primary_key_witness :
    (cxSubUser.email = "a@x.com" ∨ cxSubUser.googleId = "g-1")
    ∧ cxSubUser ∈ cxDB.users
    ∧ ∀ w ∈ cxDB.users, (w.email = "a@x.com" ∨ w.googleId = "g-1") → cxSubUser.id ≤ w.id :=
  (oauth_lookup_first_by_primary_key cxDB.users "a@x.com" "g-1" cxSubUser
    (by decide)).1 (by decide)

/-! ## C1 — the toggle/switch vote state machine -/

/-- Case analysis of `voteComment` when the target comment exists. -/
lemma voteComment_cases (db : DB) (voterId commentId voteType : Int) (comment : CommentRow)
    (hc : db.comments.find? (fun c => c.id == commentId) = some comment) :
    (db.votes.find? (fun v => v.userId == voterId && v.commentId == commentId) = none →
      voteComment db voterId commentId voteType =
        (.ok "Vote recorded",
         { db with
             votes := db.votes ++
               [{ id := db.nextVoteId, userId := voterId, postId := 0,
                  commentId := comment.id, voteType := voteType }],
             nextVoteId := db.nextVoteId + 1 }))
    ∧ (∀ v, db.votes.find? (fun v => v.userId == voterId && v.commentId == commentId) = some v →
        v.voteType = voteType →
        voteComment db voterId commentId voteType =
          (.ok "Vote removed",
           { db with votes := db.votes.filter (fun w => !(w.id == v.id)) }))
    ∧ (∀ v, db.votes.find? (fun v => v.userId == voterId && v.commentId == commentId) = some v →
        v.voteType ≠ voteType →
        voteComment db voterId commentId voteType =
          (.ok "Vote updated",
           { db with votes := db.votes.map (fun w =>
               if w.id == v.id then { w with voteType := voteType } else w) })) := by
  refine ⟨?_, ?_, ?_⟩
  · intro hv
    unfold voteComment
    simp only [hc, hv]
  · intro v hv heq
    unfold voteComment
    simp only [hc, hv]
    rw [if_pos heq]
  · intro v hv hne
    unfold voteComment
    simp only [hc, hv]
    rw [if_neg hne]

/-- C1: for every authenticated voter and existing target, casting a vote
follows the toggle/switch state machine.  For posts (`VotePost`): no
existing (voter, post) row → a row with the requested direction is inserted
and the message is "Vote recorded"; an existing row of the same direction →
that row is deleted, "Vote removed"; an existing row of the opposite
direction → that row's vote_type is updated, "Vote updated".  For comments
the same holds for `UpvoteComment` (direction +1) and `DownvoteComment`
(direction -1). -/
theorem vote_toggle_state_machine :
    (∀ (db : DB) (voterId postId voteType : Int) (post : PostRow),
      (voteType = -1 ∨ voteType = 1) →
      db.posts.find? (fun p => p.id == postId) = some post →
      ((db.votes.find? (fun v => v.userId == voterId && v.postId == postId) = none →
         VotePost db voterId postId voteType =
           (.ok "Vote recorded",
            { db with
                votes := db.votes ++
                  [{ id := db.nextVoteId, userId := voterId, postId := post.id,
                     commentId := 0, voteType := voteType }],
                nextVoteId := db.nextVoteId + 1 }))
       ∧ (∀ v, db.votes.find? (fun v => v.userId == voterId && v.postId == postId) = some v →
           v.voteType = voteType →
           VotePost db voterId postId voteType =
             (.ok "Vote removed",
              { db with votes := db.votes.filter (fun w => !(w.id == v.id)) }))
       ∧ (∀ v, db.votes.find? (fun v => v.userId == voterId && v.postId == postId) = some v →
           v.voteType ≠ voteType →
           VotePost db voterId postId voteType =
             (.ok "Vote updated",
              { db with votes := db.votes.map (fun w =>
                  if w.id == v.id then { w with voteType := voteType } else w) }))))
    ∧ (∀ (db : DB) (voterId commentId : Int) (comment : CommentRow),
      db.comments.find? (fun c => c.id == commentId) = some comment →
      ((db.votes.find? (fun v => v.userId == voterId && v.commentId == commentId) = none →
         UpvoteComment db voterId commentId =
           (.ok "Vote recorded",
            { db with
                votes := db.votes ++
                  [{ id := db.nextVoteId, userId := voterId, postId := 0,
                     commentId := comment.id, voteType := 1 }],
                nextVoteId := db.nextVoteId + 1 }))
       ∧ (∀ v, db.votes.find? (fun v => v.userId == voterId && v.commentId == commentId) = some v →
           v.voteType = 1 →
           UpvoteComment db voterId commentId =
             (.ok "Vote removed",
              { db with votes := db.votes.filter (fun w => !(w.id == v.id)) }))
       ∧ (∀ v, db.votes.find? (fun v => v.userId == voterId && v.commentId == commentId) = some v →
           v.voteType ≠ 1 →
           UpvoteComment db voterId commentId =
             (.ok "Vote updated",
              { db with votes := db.votes.map (fun w =>
                  if w.id == v.id then { w with voteType := 1 } else w) }))
       ∧ (db.votes.find? (fun v => v.userId == voterId && v.commentId == commentId) = none →
         DownvoteComment db voterId commentId =
           (.ok "Vote recorded",
            { db with
                votes := db.votes ++
                  [{ id := db.nextVoteId, userId := voterId, postId := 0,
                     commentId := comment.id, voteType := -1 }],
                nextVoteId := db.nextVoteId + 1 }))
       ∧ (∀ v, db.votes.find? (fun v => v.userId == voterId && v.commentId == commentId) = some v →
           v.voteType = -1 →
           DownvoteComment db voterId commentId =
             (.ok "Vote removed",
              { db with votes := db.votes.filter (fun w => !(w.id == v.id)) }))
       ∧ (∀ v, db.votes.find? (fun v => v.userId == voterId && v.commentId == commentId) = some v →
           v.voteType ≠ -1 →
           DownvoteComment db voterId commentId =
             (.ok "Vote updated",
              { db with votes := db.votes.map (fun w =>
                  if w.id == v.id then { w with voteType := -1 } else w) })))) := by
  constructor
  · intro db voterId postId voteType post hvt hp
    refine ⟨?_, ?_, ?_⟩
    · intro hv
      unfold VotePost
      rw [if_neg (not_not_intro hvt)]
      simp only [hp, hv]
    · intro v hv heq
      unfold VotePost
      rw [if_neg (not_not_intro hvt)]
      simp only [hp, hv]
      rw [if_pos heq]
    · intro v hv hne
      unfold VotePost
      rw [if_neg (not_not_intro hvt)]
      simp only [hp, hv]
      rw [if_neg hne]
  · intro db voterId commentId comment hc
    have hup := voteComment_cases db voterId commentId 1 comment hc
    have hdown := voteComment_cases db voterId commentId (-1) comment hc
    exact ⟨hup.1, hup.2.1, hup.2.2, hdown.1, hdown.2.1, hdown.2.2⟩

/-- Witness for C1: user 9 upvotes post 5 with no prior vote (insert +
"Vote recorded"), and upvotes comment 3 already upvoted (delete +
"Vote removed"). -/
theorem vote_toggle_state_machine_witness :
    VotePost dbW 9 5 1
      = (.ok "Vote recorded",
         { dbW with
             votes := [{ id := 1, userId := 9, postId := 5, commentId := 0, voteType := 1 }],
             nextVoteId := 2 })
    ∧ UpvoteComment dbWV 9 3 = (.ok "Vote removed", { dbWV with votes := [voteW] }) :=
  ⟨(vote_toggle_state_machine.1 dbW 9 5 1 postW (Or.inr rfl) (by decide)).1 (by decide),
   ((vote_toggle_state_machine.2 dbWV 9 3 commentW (by decide)).2.1) voteCW (by decide) rfl⟩

/-! ## C10 — deleting a comment cleans up exactly its votes -/

/-- C10: when the owner deletes a comment, every vote row on that comment
is removed and every other vote row (other comments, and all post votes,
which carry `comment_id = 0`) survives; `DeletePost` deletes no vote rows
at all. -/
theorem delete_comment_vote_cleanup :
    (∀ (db : DB) (userId commentId : Int) (comment : CommentRow),
      db.comments.find? (fun c => c.id == commentId) = some comment →
      comment.authorId = userId →
      comment.id ≠ 0 →
      (DeleteComment db userId commentId).1 = .ok "Comment deleted successfully"
      ∧ (DeleteComment db userId commentId).2.votes
          = db.votes.filter (fun v => !(v.commentId == comment.id))
      ∧ (∀ v ∈ db.votes, v.commentId = comment.id →
          v ∉ (DeleteComment db userId commentId).2.votes)
      ∧ (∀ v ∈ db.votes, v.commentId ≠ comment.id →
          v ∈ (DeleteComment db userId commentId).2.votes)
      ∧ (∀ v ∈ db.votes, v.commentId = 0 →
          v ∈ (DeleteComment db userId commentId).2.votes))
    ∧ (∀ (db : DB) (userId postId : Int) (post : PostRow),
      db.posts.find? (fun p => p.id == postId) = some post →
      (post.authorId = userId ∨ post.userId = userId) →
      (DeletePost db userId postId).2.votes = db.votes) := by
  constructor
  · intro db userId commentId comment hc hown hne
    have hrun : DeleteComment db userId commentId =
        (.ok "Comment deleted successfully",
         { db with
             votes := db.votes.filter (fun v => !(v.commentId == comment.id)),
             comments := db.comments.filter (fun c => !(c.id == comment.id)) }) := by
      unfold DeleteComment
      simp only [hc]
      rw [if_neg (not_not_intro hown)]
    rw [hrun]
    refine ⟨rfl, rfl, ?_, ?_, ?_⟩
    · intro v hv hvc
      simp only [List.mem_filter]
      intro hmem
      rw [hvc] at hmem
      simp at hmem
    · intro v hv hvc
      simp only [List.mem_filter]
      exact ⟨hv, by simpa using hvc⟩
    · intro v hv hvc
      simp only [List.mem_filter]
      refine ⟨hv, ?_⟩
      rw [hvc]
      simpa using fun h => hne h.symm
  · intro db userId postId post hp hown
    unfold DeletePost
    simp only [hp]
    rw [if_neg (not_not_intro hown)]

/-- Witness for C10: user 7 deletes comment 3; the comment's vote is gone,
the post vote survives, and deleting post 5 leaves all votes in place. -/
theorem delete_comment_vote_cleanup_witness :
    (DeleteComment dbWV 7 3).1 = .ok "Comment deleted successfully"
    ∧ (DeleteComment dbWV 7 3).2.votes
        = dbWV.votes.filter (fun v => !(v.commentId == commentW.id))
    ∧ voteW ∈ (DeleteComment dbWV 7 3).2.votes
    ∧ (DeletePost dbWV 7 5).2.votes = dbWV.votes := by
  have h := delete_comment_vote_cleanup.1 dbWV 7 3 commentW (by decide) rfl (by decide)
  have h2 := delete_comment_vote_cleanup.2 dbWV 7 5 postW (by decide) (Or.inl rfl)
  exact ⟨h.1, h.2.1, h.2.2.2.2 voteW (by decide) rfl, h2⟩

/-! ## C2 — at most one vote row per (user, target) -/

lemma countP_filter_le (l : List Vote) (p q : Vote → Bool) :
    (l.filter q).countP p ≤ l.countP p :=
  (List.filter_sublist l).countP_le p

/-- Updating one row's `vote_type` in place never changes a count whose
predicate ignores `vote_type`. -/
lemma countP_update_voteType (l : List Vote) (id0 vt : Int) (p : Vote → Bool)
    (hp : ∀ v : Vote, p { v with voteType := vt } = p v) :
    (l.map (fun v => if v.id == id0 then { v with voteType := vt } else v)).countP p
      = l.countP p := by
  induction l with
  | nil => rfl
  | cons x xs ih =>
    simp only [List.map_cons, List.countP_cons, ih]
    congr 1
    cases hx : (x.id == id0) <;> simp [hx, hp x]

lemma VoteInv_filter (votes : List Vote) (q : Vote → Bool) (h : VoteInv votes) :
    VoteInv (votes.filter q) :=
  ⟨fun u p hp => le_trans (countP_filter_le votes _ q) (h.1 u p hp),
   fun u c hc => le_trans (countP_filter_le votes _ q) (h.2 u c hc)⟩

lemma VoteInv_update (votes : List Vote) (id0 vt : Int) (h : VoteInv votes) :
    VoteInv (votes.map (fun v => if v.id == id0 then { v with voteType := vt } else v)) :=
  ⟨fun u p hp => by
      rw [countP_update_voteType votes id0 vt
        (fun v => v.userId == u && v.postId == p) (fun v => rfl)]
      exact h.1 u p hp,
   fun u c hc => by
      rw [countP_update_voteType votes id0 vt
        (fun v => v.userId == u && v.commentId == c) (fun v => rfl)]
      exact h.2 u c hc⟩

/-- Appending a fresh post-vote row preserves the invariant when the
handler's pre-read found no row for that (user, post) pair. -/
lemma VoteInv_append_post (votes : List Vote) (id0 u pid t : Int)
    (h : VoteInv votes)
    (hnone : votes.find? (fun v => v.userId == u && v.postId == pid) = none) :
    VoteInv (votes ++ [{ id := id0, userId := u, postId := pid,
                         commentId := 0, voteType := t }]) := by
  constructor
  · intro u' p' hp'
    rw [List.countP_append]
    cases hnew : (fun v => v.userId == u' && v.postId == p')
        ({ id := id0, userId := u, postId := pid, commentId := 0, voteType := t } : Vote) with
    | false =>
      have h1 : List.countP (fun v => v.userId == u' && v.postId == p')
          [({ id := id0, userId := u, postId := pid, commentId := 0, voteType := t } : Vote)]
            = 0 := by
        simp only [List.countP_cons, List.countP_nil, hnew]
        simp
      rw [h1]
      simpa using h.1 u' p' hp'
    | true =>
      have hb : u = u' ∧ pid = p' := by simpa using hnew
      obtain ⟨rfl, rfl⟩ := hb
      have h0 : votes.countP (fun v => v.userId == u && v.postId == pid) = 0 := by
        apply List.countP_eq_zero.mpr
        intro v hvmem
        simpa using List.find?_eq_none.mp hnone v hvmem
      rw [h0]
      simp
  · intro u' c' hc'
    rw [List.countP_append]
    have h1 : List.countP (fun v => v.userId == u' && v.commentId == c')
        [({ id := id0, userId := u, postId := pid, commentId := 0, voteType := t } : Vote)]
          = 0 := by
      simp only [List.countP_cons, List.countP_nil]
      have : ((0 : Int) == c') = false := by
        simpa using fun h => hc' h.symm
      simp [this]
    rw [h1]
    simpa using h.2 u' c' hc'

/-- Appending a fresh comment-vote row preserves the invariant when the
handler's pre-read found no row for that (user, comment) pair. -/
lemma VoteInv_append_comment (votes : List Vote) (id0 u cid t : Int)
    (h : VoteInv votes)
    (hnone : votes.find? (fun v => v.userId == u && v.commentId == cid) = none) :
    VoteInv (votes ++ [{ id := id0, userId := u, postId := 0,
                         commentId := cid, voteType := t }]) := by
  constructor
  · intro u' p' hp'
    rw [List.countP_append]
    have h1 : List.countP (fun v => v.userId == u' && v.postId == p')
        [({ id := id0, userId := u, postId := 0, commentId := cid, voteType := t } : Vote)]
          = 0 := by
      simp only [List.countP_cons, List.countP_nil]
      have : ((0 : Int) == p') = false := by
        simpa using fun h => hp' h.symm
      simp [this]
    rw [h1]
    simpa using h.1 u' p' hp'
  · intro u' c' hc'
    rw [List.countP_append]
    cases hnew : (fun v => v.userId == u' && v.commentId == c')
        ({ id := id0, userId := u, postId := 0, commentId := cid, voteType := t } : Vote) with
    | false =>
      have h1 : List.countP (fun v => v.userId == u' && v.commentId == c')
          [({ id := id0, userId := u, postId := 0, commentId := cid, voteType := t } : Vote)]
            = 0 := by
        simp only [List.countP_cons, List.countP_nil, hnew]
        simp
      rw [h1]
      simpa using h.2 u' c' hc'
    | true =>
      have hb : u = u' ∧ cid = c' := by simpa using hnew
      obtain ⟨rfl, rfl⟩ := hb
      have h0 : votes.countP (fun v => v.userId == u && v.commentId == cid) = 0 := by
        apply List.countP_eq_zero.mpr
        intro v hvmem
        simpa using List.find?_eq_none.mp hnone v hvmem
      rw [h0]
      simp

lemma VotePost_preserves_inv (db : DB) (u pid t : Int) (h : VoteInv db.votes) :
    VoteInv (VotePost db u pid t).2.votes := by
  unfold VotePost
  by_cases hvt : ¬ (t = -1 ∨ t = 1)
  · rw [if_pos hvt]
    exact h
  · rw [if_neg hvt]
    cases hp : db.posts.find? (fun p => p.id == pid) with
    | none => simp only [hp]; exact h
    | some post =>
      simp only [hp]
      cases hv : db.votes.find? (fun v => v.userId == u && v.postId == pid) with
      | some ex =>
        simp only [hv]
        by_cases heq : ex.voteType = t
        · rw [if_pos heq]
          exact VoteInv_filter db.votes _ h
        · rw [if_neg heq]
          exact VoteInv_update db.votes ex.id t h
      | none =>
        simp only [hv]
        have hpid : post.id = pid := by simpa using List.find?_some hp
        rw [hpid]
        exact VoteInv_append_post db.votes db.nextVoteId u pid t h hv

lemma voteComment_preserves_inv (db : DB) (u cid t : Int) (h : VoteInv db.votes) :
    VoteInv (voteComment db u cid t).2.votes := by
  unfold voteComment
  cases hc : db.comments.find? (fun c => c.id == cid) with
  | none => simp only [hc]; exact h
  | some comment =>
    simp only [hc]
    cases hv : db.votes.find? (fun v => v.userId == u && v.commentId == cid) with
    | some ex =>
      simp only [hv]
      by_cases heq : ex.voteType = t
      · rw [if_pos heq]
        exact VoteInv_filter db.votes _ h
      · rw [if_neg heq]
        exact VoteInv_update db.votes ex.id t h
    | none =>
      simp only [hv]
      have hcid : comment.id = cid := by simpa using List.find?_some hc
      rw [hcid]
      exact VoteInv_append_comment db.votes db.nextVoteId u cid t h hv

lemma DeleteComment_preserves_inv (db : DB) (u cid : Int) (h : VoteInv db.votes) :
    VoteInv (DeleteComment db u cid).2.votes := by
  unfold DeleteComment
  cases hc : db.comments.find? (fun c => c.id == cid) with
  | none => simp only [hc]; exact h
  | some comment =>
    simp only [hc]
    split
    · exact h
    · exact VoteInv_filter db.votes _ h

lemma DeletePost_preserves_inv (db : DB) (u pid : Int) (h : VoteInv db.votes) :
    VoteInv (DeletePost db u pid).2.votes := by
  unfold DeletePost
  cases hp : db.posts.find? (fun p => p.id == pid) with
  | none => simp only [hp]; exact h
  | some post =>
    simp only [hp]
    split
    · exact h
    · exact h

lemma applyOp_preserves_inv (db : DB) (op : Op) (h : VoteInv db.votes) :
    VoteInv (applyOp db op).votes := by
  cases op with
  | castPost u p t => exact VotePost_preserves_inv db u p t h
  | upvoteC u c => exact voteComment_preserves_inv db u c 1 h
  | downvoteC u c => exact voteComment_preserves_inv db u c (-1) h
  | deleteC u c => exact DeleteComment_preserves_inv db u c h
  | deleteP u p => exact DeletePost_preserves_inv db u p h

/-- C2 (amended): in every store reachable from a store satisfying the
uniqueness invariant (in particular the initial empty ledger) by any
sequence of handler operations, at most one Vote row exists per
(user-id, post-id) and per (user-id, comment-id) pair.  This is maintained
by the handlers' read-check-then-write sequences; the ledger itself does
not enforce it (see the counterexample). -/
theorem vote_uniqueness_invariant :
    ∀ (db0 : DB) (ops : List Op), VoteInv db0.votes → VoteInv (applyOps db0 ops).votes := by
  intro db0 ops
  induction ops generalizing db0 with
  | nil => exact fun h => h
  | cons op ops ih =>
    intro h
    exact ih (applyOp db0 op) (applyOp_preserves_inv db0 op h)

/-- Witness for the amended C2: a concrete run from the empty ledger. -/
theorem vote_uniqueness_invariant_witness :
    VoteInv (applyOps dbW [.castPost 9 5 1, .upvoteC 9 3, .castPost 9 5 1]).votes :=
  vote_uniqueness_invariant dbW [.castPost 9 5 1, .upvoteC 9 3, .castPost 9 5 1]
    ⟨fun _ _ _ => by simp [dbW], fun _ _ _ => by simp [dbW]⟩

/-- C2 counterexample: uniqueness is NOT enforced atomically by the ledger
itself.  The runtime `votes` table (GORM `AutoMigrate` of `models.Vote`,
which declares no unique index; the raw-SQL `Initialize` with the UNIQUE
constraints is never called) accepts a second row for the same
(user 1, post 1) pair: the store-level insert succeeds and the resulting
state violates the invariant.  Only the handlers' separate read-then-write
sequence prevents this sequentially. -/
theorem ledger_accepts_duplicate_vote :
    VoteInv [{ id := 1, userId := 1, postId := 1, commentId := 0, voteType := 1 }]
    ∧ (dbCreateVote
        { users := [], posts := [], comments := [],
          votes := [{ id := 1, userId := 1, postId := 1, commentId := 0, voteType := 1 }],
          nextVoteId := 2, nextUserId := 1 } 1 1 0 1).votes
      = [{ id := 1, userId := 1, postId := 1, commentId := 0, voteType := 1 },
         { id := 2, userId := 1, postId := 1, commentId := 0, voteType := 1 }]
    ∧ ¬ VoteInv (dbCreateVote
        { users := [], posts := [], comments := [],
          votes := [{ id := 1, userId := 1, postId := 1, commentId := 0, voteType := 1 }],
          nextVoteId := 2, nextUserId := 1 } 1 1 0 1).votes := by
  refine ⟨⟨?_, ?_⟩, rfl, ?_⟩
  · intro u p hp
    exact le_trans (List.countP_le_length _) (by simp)
  · intro u c hc
    exact le_trans (List.countP_le_length _) (by simp)
  · intro hinv
    have := hinv.1 1 1 (by decide)
    revert this
    decide

/-! ## C3 — counts are always derived from the ledger -/

/-- A `find?` over a mapped list commutes with the map when the mapping
cannot change the predicate's verdict. -/
lemma find?_map_of_pred_comm {α : Type} (l : List α) (g : α → α) (p : α → Bool)
    (hg : ∀ x, p (g x) = p x) :
    (l.map g).find? p = (l.find? p).map g := by
  induction l with
  | nil => rfl
  | cons x xs ih =>
    simp only [List.map_cons]
    cases hx : p x with
    | true =>
      rw [List.find?_cons_of_pos _ (by rw [hg]; exact hx), List.find?_cons_of_pos _ hx]
      rfl
    | false =>
      rw [List.find?_cons_of_neg _ (by simp [hg, hx]),
        List.find?_cons_of_neg _ (by simp [hx])]
      exact ih

/-- C3: after any sequence of cast/toggle operations, the counts a read
returns equal the number of ledger rows for that target with
vote_type = +1 / -1 (first two conjuncts), and the read is invariant under
arbitrary rewrites of the stored denormalized counter columns, i.e. the
counts are derived at read time, never served from a cached counter (third
conjunct). -/
theorem derived_vote_counts :
    (∀ (db0 : DB) (ops : List Op) (postId : Int) (r : PostResponse),
      GetPost (applyOps db0 ops) postId = some r →
      r.upvotes = (applyOps db0 ops).votes.countP
          (fun v => v.postId == r.id && v.voteType == 1)
      ∧ r.downvotes = (applyOps db0 ops).votes.countP
          (fun v => v.postId == r.id && v.voteType == -1))
    ∧ (∀ (db0 : DB) (ops : List Op) (postId : Int) (r : CommentResponse),
      r ∈ GetComments (applyOps db0 ops) postId →
      r.upvotes = (applyOps db0 ops).votes.countP
          (fun v => v.commentId == r.id && v.voteType == 1)
      ∧ r.downvotes = (applyOps db0 ops).votes.countP
          (fun v => v.commentId == r.id && v.voteType == -1))
    ∧ (∀ (db : DB) (fp : PostRow → Int × Int) (fc : CommentRow → Int × Int) (postId : Int),
      GetPost (overwriteCounters db fp fc) postId = GetPost db postId
      ∧ GetComments (overwriteCounters db fp fc) postId = GetComments db postId) := by
  refine ⟨?_, ?_, ?_⟩
  · intro db0 ops postId r hr
    unfold GetPost at hr
    cases hfind : (applyOps db0 ops).posts.find? (fun p => p.id == postId) with
    | none => rw [hfind] at hr; simp at hr
    | some post =>
      rw [hfind] at hr
      injection hr with hr
      subst hr
      exact ⟨rfl, rfl⟩
  · intro db0 ops postId r hr
    unfold GetComments at hr
    rw [List.mem_map] at hr
    obtain ⟨c, hcmem, rfl⟩ := hr
    exact ⟨rfl, rfl⟩
  · intro db fp fc postId
    constructor
    · show GetPost (overwriteCounters db fp fc) postId = GetPost db postId
      unfold GetPost overwriteCounters
      dsimp only
      rw [find?_map_of_pred_comm db.posts
        (fun p => { p with upvotes := (fp p).1, downvotes := (fp p).2 })
        (fun p => p.id == postId) (fun x => rfl)]
      cases hfind : db.posts.find? (fun p => p.id == postId) with
      | none => rfl
      | some post => rfl
    · show GetComments (overwriteCounters db fp fc) postId = GetComments db postId
      unfold GetComments overwriteCounters
      rw [List.filter_map, List.map_map]
      rfl

/-- Witness for C3: after user 9 upvotes post 5 and comment 3, the post
read reports exactly one upvote and zero downvotes, both equal to the
ledger row counts, and a read is unchanged when every stored counter is
overwritten with 99. -/
theorem derived_vote_counts_witness :
    (({ id := 5, title := "t", body := "b", content := "b", image := "",
        userId := 7, authorId := 7, upvotes := 1, downvotes := 0 } : PostResponse).upvotes
      = (applyOps dbW [.castPost 9 5 1, .upvoteC 9 3]).votes.countP
          (fun v => v.postId == (5 : Int) && v.voteType == 1)
      ∧ ({ id := 5, title := "t", body := "b", content := "b", image := "",
           userId := 7, authorId := 7, upvotes := 1, downvotes := 0 } : PostResponse).downvotes
        = (applyOps dbW [.castPost 9 5 1, .upvoteC 9 3]).votes.countP
            (fun v => v.postId == (5 : Int) && v.voteType == -1))
    ∧ GetPost (overwriteCounters dbWV (fun _ => (99, 99)) (fun _ => (99, 99))) 5
        = GetPost dbWV 5 :=
  ⟨(derived_vote_counts.1 dbW [.castPost 9 5 1, .upvoteC 9 3] 5
      { id := 5, title := "t", body := "b", content := "b", image := "",
        userId := 7, authorId := 7, upvotes := 1, downvotes := 0 } (by decide)),
   (derived_vote_counts.2.2 dbWV (fun _ => (99, 99)) (fun _ => (99, 99)) 5).1⟩

end RedditClone
